import Mathlib

/-!
Verification of `cleye.py` (deathbeds/cleye): a layer that inspects a Python
function signature and synthesizes `click` decorators from it.

The Python source is shallowly embedded below.  Python classes relevant to the
type dispatch are an inductive `PyClass` with the real subclass relation
(`bool ⊆ int ⊆ object`, every listed class ⊆ `object`, user classes through a
single base).  Python values and annotation objects are `PyObj`.  The external
`click` and `stringcase` libraries are treated as the spec treats them — black
boxes: each `click` construction call is recorded opaquely (`ClickType`,
`Decorator`, `Command`), while the observable behaviour cleye relies on
(decorator application appending to a parameter memo, `click.command` reversing
that memo, `Group.add_command`) is modelled from click 7's documented contract.
`stringcase.spinalcase` is modelled from the stringcase library source (ASCII
range, as in its regexes).
-/

namespace Cleye

/-- Python classes that `cleye.click_type` dispatches on, plus user classes
with one base (single inheritance suffices for the chains used here). -/
inductive PyClass where
  | boolC | intC | floatC | strC | datetimeC | tupleC | uuidC
  | listC | setC | pathC | objectC
  | userC (name : String) (base : PyClass)
deriving DecidableEq, Repr

/-- Python's `issubclass` on the embedded classes: reflexive, and following
each class's MRO (`bool → int → object`, user classes through their base,
every other listed class directly to `object`). -/
def issubclass (x y : PyClass) : Bool :=
  (x == y) ||
    match x with
    | .boolC => y == .intC || y == .objectC
    | .objectC => false
    | .userC _ b => issubclass b y
    | _ => y == .objectC

/-- Python objects: classes, `typing._GenericAlias` values (whose `__args__`
is always non-empty, hence a head argument plus a tail), and the plain values
that appear as defaults.  Float payloads are abstracted to `Rat`; only their
`isinstance` tag matters to the code. -/
inductive PyObj where
  | cls (c : PyClass)
  | generic (arg0 : PyObj) (rest : List PyObj)
  | pyNone
  | intV (n : Int)
  | floatV (q : Rat)
  | strV (s : String)
  | boolV (b : Bool)
  | tupleV (elems : List PyObj)

/-- Model of `isinstance(x, typing._GenericAlias)`. -/
def isGenericAlias : PyObj → Bool
  | .generic _ _ => true
  | _ => false

/-- The identity test `v is bool`. -/
def isBoolClass : PyObj → Bool
  | .cls .boolC => true
  | _ => false

/-- Model of `isinstance(x, type)`. -/
def isClassB : PyObj → Bool
  | .cls _ => true
  | _ => false

/-- Model of `isinstance(x, int)` (true for Python `bool` values too). -/
def isInstInt : PyObj → Bool
  | .intV _ => true
  | .boolV _ => true
  | _ => false

/-- Model of `isinstance(x, float)`. -/
def isInstFloat : PyObj → Bool
  | .floatV _ => true
  | _ => false

/-- The lookup `getattr(v, "__args__", (str,))[0]`: the first type argument of a generic
alias, defaulting to `str` for objects without `__args__`. -/
def argsHead : PyObj → PyObj
  | .generic a _ => a
  | _ => .cls .strC

/-- Function `cleye.istype`: guarded subclass test — `issubclass(x, y)` when `x` is a
class, `False` otherwise. -/
def istype (x : PyObj) (y : PyClass) : Bool :=
  match x with
  | .cls c => issubclass c y
  | _ => false

/-- Python's raw `issubclass(x, y)`, which raises `TypeError` when `x` is not
a class.  Used to state what `istype` protects against. -/
def python_issubclass (x : PyObj) (y : PyClass) : Except String Bool :=
  match x with
  | .cls c => .ok (issubclass c y)
  | _ => .error "TypeError: issubclass() arg 1 must be a class"

/-- Results of `cleye.click_type`, i.e. the click validator constructions it
performs, recorded opaquely (click is a black box).  `pyType c` is the branch
`return object` that hands the class itself back to click. -/
inductive ClickType where
  | dateTime
  | uuidT (default : PyObj)
  | choice (c : PyClass)
  | path
  | intRange (bounds : List PyObj)
  | floatRange (bounds : List PyObj)
  | pyType (c : PyClass)

/-- Function `cleye.click_type(object, default=None)`.  The branch structure follows
the source exactly: a generic alias recurses into its first type argument; a
class runs the `issubclass`/identity chain; a tuple value is probed for an
int range then a float range; everything else falls through to `None`.
`issubclass(c, typing.Tuple)` succeeding leads to `object.__args__`, which
raises `AttributeError` on a plain class. -/
def click_type (object : PyObj) (default : PyObj) : Except String (Option ClickType) :=
  match object with
  | .generic a _ => click_type a default
  | .cls c =>
    if issubclass c .datetimeC then .ok (some .dateTime)
    else if issubclass c .tupleC then .error "AttributeError: no attribute args"
    else if issubclass c .uuidC then .ok (some (.uuidT default))
    else if c == .listC then .ok none
    else if issubclass c .setC then .ok (some (.choice c))
    else if issubclass c .pathC then .ok (some .path)
    else if c == .objectC then .ok none
    else .ok (some (.pyType c))
  | .tupleV xs =>
    if (xs.take 2).all isInstInt then .ok (some (.intRange xs))
    else if (xs.take 2).all isInstFloat then .ok (some (.floatRange xs))
    else .ok none
  | _ => .ok none

/-- Python whitespace characters matched by the regex class of whitespace
(ASCII range). -/
def pyIsSpace (c : Char) : Bool :=
  c = ' ' || c = '\t' || c = '\n' || c = '\x0d' || c = '\x0b' || c = '\x0c'

/-- Function `stringcase.snakecase` (modelled from the stringcase library source):
replace hyphen, dot and whitespace by underscore, lowercase the first
character, and prepend an underscore to every later uppercase character while
lowercasing it. -/
def snakecase (s : String) : String :=
  let s1 := s.data.map fun c => if c = '-' || c = '.' || pyIsSpace c then '_' else c
  match s1 with
  | [] => ""
  | c :: cs =>
    String.mk (c.toLower :: (cs.map fun c => if c.isUpper then ['_', c.toLower] else [c]).flatten)

/-- Function `stringcase.spinalcase`: snakecase with underscores replaced by hyphens. -/
def spinalcase (s : String) : String :=
  String.mk ((snakecase s).data.map fun c => if c = '_' then '-' else c)

/-- The hyphen run prepended to an option flag: one hyphen for single-letter
parameter names, two otherwise. -/
def optionHyphens (k : String) : String :=
  if k.length = 1 then "-" else "--"

/-- Python `dict` lookup (`k in d` / `d.get(k)`) over an insertion-ordered
association list. -/
def dictGet (k : String) : List (String × PyObj) → Option PyObj
  | [] => none
  | (k', v) :: rest => if k' == k then some v else dictGet k rest

/-- One synthesized click decorator, recorded opaquely: the `click.option`,
`click.argument` and `click.pass_context` constructions made by cleye with the
arguments cleye passes (option flag string, validator, default, show_default,
is_flag; argument name, validator, nargs). -/
inductive Decorator where
  | option (flag : String) (ty : Option ClickType) (default : PyObj)
      (show_default : Bool) (is_flag : Bool)
  | argument (name : String) (ty : Option ClickType) (nargs : Int)
  | pass_context

/-- The name under which a decorator surfaces on the CLI (empty for
`pass_context`, which is not CLI-visible). -/
def Decorator.nameOf : Decorator → String
  | .option f _ _ _ _ => f
  | .argument n _ _ => n
  | .pass_context => ""

/-- Returns `true` for decorators that register a CLI parameter (option/argument),
`false` for `pass_context`. -/
def isParamDecorator : Decorator → Bool
  | .pass_context => false
  | _ => true

/-- Loop body of `cleye.decorators_from_dicts` for one `(k, v)` item of the
annotations dict: a defaulted parameter becomes `click.option` with the
hyphen-prefixed spinal-case flag, the mapped type, the default,
`show_default=True` and `is_flag=(v is bool)`; an undefaulted generic alias or
list subclass becomes a `nargs=-1` `click.argument` typed from the first type
argument (text if absent); anything else becomes a plain `click.argument`. -/
def bindingFor (defaults : List (String × PyObj)) (k : String) (v : PyObj) :
    Except String Decorator :=
  match dictGet k defaults with
  | some dflt =>
    match click_type v dflt with
    | .error e => .error e
    | .ok t => .ok (.option (optionHyphens k ++ spinalcase k) t dflt true (isBoolClass v))
  | none =>
    if isGenericAlias v || istype v .listC then
      match click_type (argsHead v) .pyNone with
      | .error e => .error e
      | .ok t => .ok (.argument (spinalcase k) t (-1))
    else
      match click_type v .pyNone with
      | .error e => .error e
      | .ok t => .ok (.argument (spinalcase k) t 1)

/-- Function `cleye.decorators_from_dicts(annotations, defaults, *decorators)`: iterate
the annotations dict in order, appending one decorator per parameter to the
incoming tuple. -/
def decorators_from_dicts (annots defaults : List (String × PyObj))
    (decorators : List Decorator) : Except String (List Decorator) :=
  match annots with
  | [] => .ok decorators
  | (k, v) :: rest =>
    match bindingFor defaults k v with
    | .error e => .error e
    | .ok d => decorators_from_dicts rest defaults (decorators ++ [d])

/-- The kinds of `inspect.Parameter`. -/
inductive ParamKind where
  | posOnly | posOrKw | varPositional | kwOnly | varKeyword
deriving DecidableEq

/-- One parameter of an introspected signature: name, annotated type (`annot`
is `inspect._empty` modelled as whatever `PyObj` the caller supplies; claims
quantify over it), default (`none` = `inspect._empty`), and kind. -/
structure Param where
  name : String
  annot : PyObj
  default : Option PyObj
  kind : ParamKind

/-- A Python function as `inspect.signature` sees it, plus its docstring. -/
structure PyFunc where
  name : String
  params : List Param
  doc : Option String

/-- The annotations dict comprehension of `cleye.signature_to_decorators`:
skip `ctx`; a `*args` parameter contributes `typing.List[annotation]`
(a generic alias over its annotated element type), every other parameter its
annotation. -/
def sig_annots (params : List Param) : List (String × PyObj) :=
  params.filterMap fun p =>
    if p.name == "ctx" then none
    else
      some (p.name,
        match p.kind with
        | .varPositional => PyObj.generic p.annot []
        | _ => p.annot)

/-- The defaults dict comprehension of `cleye.signature_to_decorators`: the
parameters whose default is not `inspect._empty`. -/
def sig_defaults (params : List Param) : List (String × PyObj) :=
  params.filterMap fun p =>
    match p.default with
    | some d => some (p.name, d)
    | none => none

/-- Function `cleye.signature_to_decorators(object, *decorators)`: extend the incoming
decorators with those synthesized from the two dict comprehensions, then run
the `for k, v in parameters: if k == "ctx": ...; break` loop, which examines
only the first parameter and appends `click.pass_context` when it is named
`ctx`. -/
def signature_to_decorators (f : PyFunc) (decorators : List Decorator) :
    Except String (List Decorator) :=
  match decorators_from_dicts (sig_annots f.params) (sig_defaults f.params) [] with
  | .error e => .error e
  | .ok ds =>
    let decorators := decorators ++ ds
    .ok
      (match f.params with
       | [] => decorators
       | p :: _ => if p.name == "ctx" then decorators ++ [.pass_context] else decorators)

/-- What a click decorator is applied to: either the user's function or — on
the broken dict path of `command_from_decorators` — the closure returned by a
previous decorator call (Python functions admit attribute attachment, so the
memo below works on either). -/
inductive CallableBase where
  | func (name : String) (doc : Option String)
  | ofDecorator (d : Decorator)

/-- A callable together with the state click's decorators attach to it: the
`__click_params__` memo (in application order) and whether `pass_context`
wrapped it. -/
structure Callable where
  base : CallableBase
  click_params : List Decorator := []
  ctx_wrapped : Bool := false

/-- Applying one click decorator to a callable (click 7 contract):
`click.option`/`click.argument` append their parameter to the
`__click_params__` memo; `click.pass_context` wraps the function, preserving
the memo. -/
def applyDecorator (f : Callable) (d : Decorator) : Callable :=
  match d with
  | .pass_context => { f with ctx_wrapped := true }
  | d => { f with click_params := f.click_params ++ [d] }

/-- A click `Command` (black box): the parameter list click assembled by
reversing the memo, the decorated callback, the `no_args_is_help` setting and
the help text cleye passed. -/
structure Command where
  params : List Decorator
  callback : Callable
  no_args_is_help : Bool
  help : Option String

/-- Model of `click.command(no_args_is_help=bool(decorators), **settings)(f)` after
`for decorator in reversed(decorators): f = decorator(f)`: click pops the
`__click_params__` memo and reverses it into the command's parameter list. -/
def cfdApply (f : Callable) (decorators : List Decorator) (help : Option String) : Command :=
  let f := decorators.reverse.foldl applyDecorator f
  { params := f.click_params.reverse
    callback := f
    no_args_is_help := !decorators.isEmpty
    help := help }

/-- Function `cleye.command_from_decorators(command, *decorators, **settings)`: when
`command is None`, `*decorators, command = decorators` pops the last decorator
off as the callable (raising `ValueError` on an empty tuple). -/
def command_from_decorators (command : Option Callable) (decorators : List Decorator)
    (help : Option String) : Except String Command :=
  match command with
  | some c => .ok (cfdApply c decorators help)
  | none =>
    match decorators with
    | [] => .error "ValueError: not enough values to unpack"
    | d :: rest =>
      .ok (cfdApply { base := .ofDecorator ((d :: rest).getLast (List.cons_ne_nil d rest)) }
        ((d :: rest).dropLast) help)

/-- A declarative mapping item for `autoclick`: the dict's
`"__annotations__"` value (empty when absent) and the dict itself, used as
the defaults lookup. -/
structure PyDict where
  annots : List (String × PyObj)
  entries : List (String × PyObj)

/-- Function `cleye.decorators_from_dict(object)`:
`decorators_from_dicts(object.get("__annotations__", {}), object)`. -/
def decorators_from_dict (d : PyDict) : Except String (List Decorator) :=
  decorators_from_dicts d.annots d.entries []

/-- A click `Group` (black box): the commands added to it, in insertion
order. -/
structure Group where
  commands : List Command

/-- Model of `Group.add_command`. -/
def Group.add (g : Group) (c : Command) : Group :=
  { commands := g.commands ++ [c] }

/-- The admissible inputs of `autoclick`, per its annotation and isinstance
chain: a pre-built command, a function, or a declarative dict. -/
inductive Item where
  | cmd (c : Command)
  | func (f : PyFunc)
  | dict (d : PyDict)

/-- Returns `true` exactly for dict items. -/
def Item.isDict : Item → Bool
  | .dict _ => true
  | _ => false

/-- One iteration of the `autoclick` loop: a command is added to the group as
is; a function is converted (its docstring as help) and added; a dict is
converted through the `command=None` path of `command_from_decorators` and —
as in the source — not added to the group.  Returns the group and the value
the loop variable `command` holds after the iteration. -/
def autoclickStep (app : Group) (it : Item) : Except String (Group × Command) :=
  match it with
  | .cmd c => .ok (app.add c, c)
  | .func f =>
    match signature_to_decorators f [] with
    | .error e => .error e
    | .ok ds =>
      match command_from_decorators (some { base := .func f.name f.doc }) ds f.doc with
      | .error e => .error e
      | .ok c => .ok (app.add c, c)
  | .dict d =>
    match decorators_from_dict d with
    | .error e => .error e
    | .ok ds =>
      match command_from_decorators none ds none with
      | .error e => .error e
      | .ok c => .ok (app, c)

/-- The `for command in object:` loop of `autoclick`, threading the group and
the loop variable. -/
def autoclickLoop (app : Group) (last : Option Command) :
    List Item → Except String (Group × Option Command)
  | [] => .ok (app, last)
  | it :: rest =>
    match autoclickStep app it with
    | .error e => .error e
    | .ok r => autoclickLoop r.1 (some r.2) rest

/-- Function `cleye.autoclick(*object, group=None, **settings)`: run the loop on a
fresh group (or the supplied one), then
`return command if len(object) == 1 else app`. -/
def autoclick (items : List Item) (group : Option Group) :
    Except String (Sum Command Group) :=
  match autoclickLoop (group.getD { commands := [] }) none items with
  | .error e => .error e
  | .ok (app, last) =>
    if items.length = 1 then
      match last with
      | some c => .ok (.inl c)
      | none => .error "UnboundLocalError: command"
    else .ok (.inr app)

example : spinalcase "fooBar" = "foo-bar" := by decide
example : spinalcase "x" = "x" := rfl
example :
    decorators_from_dicts [("x", .cls .intC)] [("x", .intV 3)] [] =
      .ok [.option "-x" (some (.pyType .intC)) (.intV 3) true false] := rfl

/-! ## Characterization lemmas -/

/-- Accumulator-free form of `decorators_from_dicts`: one decorator per
annotation item, in order. -/
def bindingsFor (defaults : List (String × PyObj)) :
    List (String × PyObj) → Except String (List Decorator)
  | [] => .ok []
  | (k, v) :: rest =>
    match bindingFor defaults k v with
    | .error e => .error e
    | .ok d =>
      match bindingsFor defaults rest with
      | .error e => .error e
      | .ok ds => .ok (d :: ds)

theorem decorators_from_dicts_eq (annots : List (String × PyObj)) :
    ∀ (defaults : List (String × PyObj)) (acc : List Decorator),
      decorators_from_dicts annots defaults acc =
        match bindingsFor defaults annots with
        | .error e => .error e
        | .ok ds => .ok (acc ++ ds) := by
  induction annots with
  | nil => intro defaults acc; simp [decorators_from_dicts, bindingsFor]
  | cons kv rest ih =>
    intro defaults acc
    obtain ⟨k, v⟩ := kv
    simp only [decorators_from_dicts, bindingsFor]
    cases bindingFor defaults k v with
    | error e => rfl
    | ok d =>
      dsimp only
      rw [ih]
      cases bindingsFor defaults rest with
      | error e => rfl
      | ok ds => dsimp only; rw [List.append_assoc]; rfl

theorem bindingsFor_append_ok {defaults : List (String × PyObj)}
    (l1 l2 : List (String × PyObj)) (ds : List Decorator)
    (h : bindingsFor defaults (l1 ++ l2) = .ok ds) :
    ∃ ds1 ds2, bindingsFor defaults l1 = .ok ds1 ∧ bindingsFor defaults l2 = .ok ds2 ∧
      ds = ds1 ++ ds2 ∧ ds1.length = l1.length := by
  induction l1 generalizing ds with
  | nil => exact ⟨[], ds, rfl, h, by simp, rfl⟩
  | cons kv rest ih =>
    obtain ⟨k, v⟩ := kv
    simp only [List.cons_append, bindingsFor] at h
    split at h
    · exact absurd h (by simp)
    · split at h
      · exact absurd h (by simp)
      · rename_i s1 d hb s2 ds' hr
        cases h
        obtain ⟨ds1, ds2, h1, h2, h3, h4⟩ := ih ds' hr
        refine ⟨d :: ds1, ds2, ?_, h2, by simp [h3], by simp [h4]⟩
        simp only [bindingsFor, hb, h1]

/-- The decorator synthesized for the annotation item at position
`pre.length` is `bindingFor` of that item. -/
theorem bindings_elem {defaults pre post : List (String × PyObj)} {k : String}
    {v : PyObj} {ds : List Decorator}
    (h : bindingsFor defaults (pre ++ (k, v) :: post) = .ok ds) :
    ∃ d, bindingFor defaults k v = .ok d ∧ ds[pre.length]? = some d := by
  obtain ⟨ds1, ds2, _, h2, h3, h4⟩ := bindingsFor_append_ok pre ((k, v) :: post) ds h
  simp only [bindingsFor] at h2
  split at h2
  · exact absurd h2 (by simp)
  · split at h2
    · exact absurd h2 (by simp)
    · rename_i s1 d hb s2 ds3 hr
      cases h2
      refine ⟨d, hb, ?_⟩
      subst h3
      rw [List.getElem?_append_right (by omega)]
      simp [h4]

/-- Every decorator `bindingFor` can return registers a CLI parameter. -/
theorem bindingFor_param {defaults : List (String × PyObj)} {k : String} {v : PyObj}
    {d : Decorator} (h : bindingFor defaults k v = .ok d) : isParamDecorator d = true := by
  unfold bindingFor at h
  split at h
  · split at h
    · exact absurd h (by simp)
    · cases h; rfl
  · split at h
    · split at h
      · exact absurd h (by simp)
      · cases h; rfl
    · split at h
      · exact absurd h (by simp)
      · cases h; rfl

theorem bindingsFor_param {defaults annots : List (String × PyObj)}
    {ds : List Decorator} (h : bindingsFor defaults annots = .ok ds) :
    ∀ d ∈ ds, isParamDecorator d = true := by
  induction annots generalizing ds with
  | nil => simp only [bindingsFor] at h; cases h; simp
  | cons kv rest ih =>
    obtain ⟨k, v⟩ := kv
    simp only [bindingsFor] at h
    split at h
    · exact absurd h (by simp)
    · split at h
      · exact absurd h (by simp)
      · rename_i s1 d hb s2 ds' hr
        cases h
        intro d' hd'
        rcases List.mem_cons.mp hd' with h' | h'
        · subst h'; exact bindingFor_param hb
        · exact ih hr d' h'

/-- The CLI name of the synthesized decorator, per item: the hyphen-prefixed
spinal-case flag for defaulted parameters, the bare spinal-case name
otherwise. -/
theorem bindingsFor_names {defaults annots : List (String × PyObj)}
    {ds : List Decorator} (h : bindingsFor defaults annots = .ok ds) :
    ds.map Decorator.nameOf =
      annots.map fun kv =>
        if (dictGet kv.1 defaults).isSome then optionHyphens kv.1 ++ spinalcase kv.1
        else spinalcase kv.1 := by
  induction annots generalizing ds with
  | nil => simp only [bindingsFor] at h; cases h; simp
  | cons kv rest ih =>
    obtain ⟨k, v⟩ := kv
    simp only [bindingsFor] at h
    split at h
    · exact absurd h (by simp)
    · split at h
      · exact absurd h (by simp)
      · rename_i s1 d hb s2 ds' hr
        cases h
        simp only [List.map_cons]
        rw [ih hr]
        congr 1
        unfold bindingFor at hb
        split at hb
        · rename_i s3 dflt hd
          split at hb
          · exact absurd hb (by simp)
          · cases hb; simp [hd, Decorator.nameOf]
        · rename_i s3 hd
          split at hb
          · split at hb
            · exact absurd hb (by simp)
            · cases hb; simp [hd, Decorator.nameOf]
          · split at hb
            · exact absurd hb (by simp)
            · cases hb; simp [hd, Decorator.nameOf]

/-- Folding decorator application appends exactly the parameter-registering
decorators to the memo. -/
theorem foldl_applyDecorator_click_params (l : List Decorator) :
    ∀ f : Callable,
      (l.foldl applyDecorator f).click_params = f.click_params ++ l.filter isParamDecorator := by
  induction l with
  | nil => intro f; simp
  | cons d rest ih =>
    intro f
    simp only [List.foldl_cons]
    rw [ih]
    cases d <;> simp [applyDecorator, isParamDecorator, List.filter_cons]

theorem issubclass_userC (n : String) (b y : PyClass) :
    issubclass (.userC n b) y = ((PyClass.userC n b == y) || issubclass b y) := rfl

/-- A class below `uuid.UUID` in the hierarchy is below neither
`datetime.datetime` nor `tuple`, so the first two branches of `click_type`'s
class chain do not fire on it. -/
theorem issubclass_uuid_chain : ∀ c : PyClass, issubclass c .uuidC = true →
    issubclass c .datetimeC = false ∧ issubclass c .tupleC = false := by
  intro c
  induction c with
  | userC n b ih =>
    intro h
    rw [issubclass_userC] at h
    simp only [Bool.or_eq_true, beq_iff_eq] at h
    rcases h with h | h
    · exact absurd h (by simp)
    · have hb := ih h
      rw [issubclass_userC, issubclass_userC]
      simp [hb.1, hb.2]
  | uuidC => intro _; exact ⟨rfl, rfl⟩
  | boolC => intro h; exact absurd h (by decide)
  | intC => intro h; exact absurd h (by decide)
  | floatC => intro h; exact absurd h (by decide)
  | strC => intro h; exact absurd h (by decide)
  | datetimeC => intro h; exact absurd h (by decide)
  | tupleC => intro h; exact absurd h (by decide)
  | listC => intro h; exact absurd h (by decide)
  | setC => intro h; exact absurd h (by decide)
  | pathC => intro h; exact absurd h (by decide)
  | objectC => intro h; exact absurd h (by decide)

/-- The annotations comprehension never yields the key `ctx`. -/
theorem sig_annots_no_ctx (params : List Param) :
    "ctx" ∉ (sig_annots params).map Prod.fst := by
  intro h
  obtain ⟨kv, hkv, hfst⟩ := List.mem_map.mp h
  obtain ⟨p, _, hsome⟩ := List.mem_filterMap.mp hkv
  split at hsome
  · exact absurd hsome (by simp)
  · rename_i hc
    cases hsome
    simp only at hfst
    exact hc (by simp [hfst])

/-- A non-`ctx` variable-positional parameter appears in the annotations
comprehension rewritten to `typing.List[annotation]`. -/
theorem sig_annots_varPositional {params : List Param} {p : Param} (hp : p ∈ params)
    (hk : p.kind = .varPositional) (hn : p.name ≠ "ctx") :
    (p.name, PyObj.generic p.annot []) ∈ sig_annots params := by
  apply List.mem_filterMap.mpr
  exact ⟨p, hp, by simp [hn, hk]⟩

/-- Running `signature_to_decorators` on an empty incoming tuple gives the synthesized
core decorators, plus a trailing `pass_context` exactly when the first
parameter is named `ctx`. -/
theorem signature_to_decorators_eq {f : PyFunc} {ds : List Decorator}
    (h : signature_to_decorators f [] = .ok ds) :
    ∃ core,
      decorators_from_dicts (sig_annots f.params) (sig_defaults f.params) [] = .ok core ∧
        ds = core ++
          (if f.params.head?.map Param.name = some "ctx" then [Decorator.pass_context]
           else []) := by
  unfold signature_to_decorators at h
  split at h
  · exact absurd h (by simp)
  · rename_i s1 core hc
    cases h
    refine ⟨core, hc, ?_⟩
    cases hp : f.params with
    | nil => simp [hp]
    | cons p rest =>
      by_cases hctx : p.name = "ctx"
      · simp [hp, hctx]
      · simp [hp, hctx]

theorem autoclickStep_len {app : Group} {it : Item} {r : Group × Command}
    (h : autoclickStep app it = .ok r) :
    r.1.commands.length = app.commands.length + (if it.isDict then 0 else 1) := by
  cases it with
  | cmd c0 =>
    simp only [autoclickStep] at h
    cases h
    simp [Group.add, Item.isDict]
  | func f =>
    simp only [autoclickStep] at h
    split at h
    · exact absurd h (by simp)
    · split at h
      · exact absurd h (by simp)
      · cases h; simp [Group.add, Item.isDict]
  | dict d =>
    simp only [autoclickStep] at h
    split at h
    · exact absurd h (by simp)
    · split at h
      · exact absurd h (by simp)
      · cases h; simp [Item.isDict]

theorem autoclickLoop_len :
    ∀ (items : List Item) (app : Group) (last : Option Command)
      (r : Group × Option Command), autoclickLoop app last items = .ok r →
      r.1.commands.length =
        app.commands.length + (items.countP fun it => !it.isDict) := by
  intro items
  induction items with
  | nil =>
    intro app last r h
    simp only [autoclickLoop] at h
    cases h
    simp
  | cons it rest ih =>
    intro app last r h
    simp only [autoclickLoop] at h
    split at h
    · exact absurd h (by simp)
    · rename_i s1 r' hs
      have h1 := autoclickStep_len hs
      have h2 := ih r'.1 (some r'.2) r h
      rw [h2, h1, List.countP_cons]
      cases it <;> simp [Item.isDict] <;> omega

theorem autoclickLoop_single {app : Group} {it : Item} {r : Group × Option Command}
    (h : autoclickLoop app none [it] = .ok r) :
    ∃ c, autoclickStep app it = .ok (r.1, c) ∧ r.2 = some c := by
  simp only [autoclickLoop] at h
  split at h
  · exact absurd h (by simp)
  · rename_i s1 r' hs
    cases h
    exact ⟨r'.2, by rw [hs], rfl⟩

/-- The binding synthesized for a defaulted parameter, in terms of its
position in the annotations dict. -/
theorem defaulted_binding {defaults pre post : List (String × PyObj)} {k : String}
    {v d : PyObj} {ds : List Decorator}
    (hd : dictGet k defaults = some d)
    (h : decorators_from_dicts (pre ++ (k, v) :: post) defaults [] = .ok ds) :
    ∃ t, click_type v d = .ok t ∧
      ds[pre.length]? =
        some (.option (optionHyphens k ++ spinalcase k) t d true (isBoolClass v)) := by
  rw [decorators_from_dicts_eq] at h
  split at h
  · exact absurd h (by simp)
  · rename_i s1 ds' hb
    cases h
    obtain ⟨dd, hbf, hidx⟩ := bindings_elem hb
    unfold bindingFor at hbf
    split at hbf
    · rename_i s2 dflt hdd
      rw [hd] at hdd
      injection hdd with hdd'
      subst hdd'
      split at hbf
      · exact absurd hbf (by simp)
      · rename_i s3 t hct
        cases hbf
        exact ⟨t, hct, by simpa using hidx⟩
    · rename_i s2 hdd
      rw [hd] at hdd
      exact absurd hdd (by simp)

/-- The binding synthesized for an undefaulted parameter on the variadic
branch, in terms of its position in the annotations dict. -/
theorem variadic_binding {defaults pre post : List (String × PyObj)} {k : String}
    {v : PyObj} {ds : List Decorator}
    (hd : dictGet k defaults = none)
    (hv : (isGenericAlias v || istype v .listC) = true)
    (h : decorators_from_dicts (pre ++ (k, v) :: post) defaults [] = .ok ds) :
    ∃ t, click_type (argsHead v) .pyNone = .ok t ∧
      ds[pre.length]? = some (.argument (spinalcase k) t (-1)) := by
  rw [decorators_from_dicts_eq] at h
  split at h
  · exact absurd h (by simp)
  · rename_i s1 ds' hb
    cases h
    obtain ⟨dd, hbf, hidx⟩ := bindings_elem hb
    unfold bindingFor at hbf
    split at hbf
    · rename_i s2 dflt hdd
      rw [hd] at hdd
      exact absurd hdd (by simp)
    · rw [if_pos hv] at hbf
      split at hbf
      · exact absurd hbf (by simp)
      · rename_i s3 t hct
        cases hbf
        exact ⟨t, hct, by simpa using hidx⟩

/-- The test `v is bool` in the model is exactly equality with the `bool` class. -/
theorem isBoolClass_iff (v : PyObj) : isBoolClass v = true ↔ v = PyObj.cls .boolC := by
  cases v with
  | cls c => cases c <;> simp [isBoolClass]
  | generic a r => simp [isBoolClass]
  | pyNone => simp [isBoolClass]
  | intV n => simp [isBoolClass]
  | floatV q => simp [isBoolClass]
  | strV s => simp [isBoolClass]
  | boolV b => simp [isBoolClass]
  | tupleV xs => simp [isBoolClass]

/-! ## Claims -/

/-- C1: for every parameter that has a default value, the synthesized binding
is a named option (not a positional argument) whose declared default is
exactly the supplied default, whose show-default setting is enabled, and
whose flag name is the spinal-case form of the parameter name prefixed with
one hyphen if the name is a single character, else two.  (Its `is_flag`
field is the identity test `v is bool`.) -/
theorem C1_defaulted_option
    (defaults pre post : List (String × PyObj)) (k : String) (v d : PyObj)
    (t : Option ClickType) (ds : List Decorator)
    (hd : dictGet k defaults = some d)
    (ht : click_type v d = .ok t)
    (h : decorators_from_dicts (pre ++ (k, v) :: post) defaults [] = .ok ds) :
    ds[pre.length]? =
      some (.option (optionHyphens k ++ spinalcase k) t d true (isBoolClass v)) := by
  obtain ⟨t', ht', hidx⟩ := defaulted_binding hd h
  rw [ht] at ht'
  injection ht' with ht''
  rw [ht'']
  exact hidx

theorem C1_defaulted_option_witness :
    ([Decorator.option "--num" (some (.pyType .intC)) (.intV 3) true false] :
        List Decorator)[(0 : Nat)]? =
      some (.option (optionHyphens "num" ++ spinalcase "num") (some (.pyType .intC))
        (.intV 3) true (isBoolClass (.cls .intC))) :=
  C1_defaulted_option [("num", .intV 3)] [] [] "num" (.cls .intC) (.intV 3)
    (some (.pyType .intC))
    [Decorator.option "--num" (some (.pyType .intC)) (.intV 3) true false] rfl rfl rfl

/-- C7: the generated option for a defaulted parameter is rendered as a
boolean flag (no value expected) if and only if the declared type is exactly
the boolean class. -/
theorem C7_flag_iff_bool
    (defaults pre post : List (String × PyObj)) (k : String) (v d : PyObj)
    (ds : List Decorator) (n : String) (t : Option ClickType) (dd : PyObj)
    (sd fl : Bool)
    (hd : dictGet k defaults = some d)
    (h : decorators_from_dicts (pre ++ (k, v) :: post) defaults [] = .ok ds)
    (hx : ds[pre.length]? = some (.option n t dd sd fl)) :
    fl = true ↔ v = PyObj.cls .boolC := by
  obtain ⟨t', ht', hidx⟩ := defaulted_binding hd h
  rw [hidx] at hx
  simp only [Option.some.injEq, Decorator.option.injEq] at hx
  rw [← hx.2.2.2.2]
  exact isBoolClass_iff v

theorem C7_flag_iff_bool_witness :
    true = true ↔ PyObj.cls .boolC = PyObj.cls .boolC :=
  C7_flag_iff_bool [("b", .boolV false)] [] [] "b" (.cls .boolC) (.boolV false)
    [Decorator.option "-b" (some (.pyType .boolC)) (.boolV false) true true] "-b"
    (some (.pyType .boolC)) (.boolV false) true true rfl rfl rfl

/-- C2: for every parameter with no default whose declared type is a
parameterized generic or the bare list type, the synthesized binding is a
variadic positional argument (`nargs = -1`) whose element validator is the
mapped type of `argsHead v` — the generic's first type argument, defaulting
to `str` when the object carries no type arguments; and a variable-positional
parameter (not named `ctx`) enters the annotations dict rewritten to a
generic alias over its annotated element type before these rules apply. -/
theorem C2_variadic_argument :
    (∀ (defaults pre post : List (String × PyObj)) (k : String) (v : PyObj)
        (t : Option ClickType) (ds : List Decorator),
        dictGet k defaults = none →
        (isGenericAlias v = true ∨ v = PyObj.cls .listC) →
        click_type (argsHead v) .pyNone = .ok t →
        decorators_from_dicts (pre ++ (k, v) :: post) defaults [] = .ok ds →
        ds[pre.length]? = some (.argument (spinalcase k) t (-1))) ∧
    (∀ (params : List Param) (p : Param), p ∈ params → p.kind = .varPositional →
        p.name ≠ "ctx" → (p.name, PyObj.generic p.annot []) ∈ sig_annots params) := by
  constructor
  · intro defaults pre post k v t ds hd hv ht h
    have hv' : (isGenericAlias v || istype v .listC) = true := by
      rcases hv with hv | hv
      · simp [hv]
      · subst hv; decide
    obtain ⟨t', ht', hidx⟩ := variadic_binding hd hv' h
    rw [ht] at ht'
    injection ht' with ht''
    rw [ht'']
    exact hidx
  · intro params p hp hk hn
    exact sig_annots_varPositional hp hk hn

theorem C2_variadic_argument_witness :
    (([Decorator.argument "xs" (some (.pyType .intC)) (-1)] :
        List Decorator)[(0 : Nat)]? =
      some (.argument (spinalcase "xs") (some (.pyType .intC)) (-1))) ∧
    (("args", PyObj.generic (.cls .strC) []) ∈
      sig_annots [⟨"args", .cls .strC, none, .varPositional⟩]) :=
  ⟨C2_variadic_argument.1 [] [] [] "xs" (.generic (.cls .intC) [])
      (some (.pyType .intC)) [Decorator.argument "xs" (some (.pyType .intC)) (-1)]
      rfl (Or.inl rfl) rfl rfl,
    C2_variadic_argument.2
      [⟨"args", .cls .strC, none, .varPositional⟩]
      ⟨"args", .cls .strC, none, .varPositional⟩
      (by simp) rfl (by decide)⟩

/-- C3: the synthesized bindings appear in the same relative order as the
parameters (the i-th binding's CLI name is derived from the i-th annotation
key), and `command_from_decorators` applies the decorators in reverse of that
order (the callback's parameter memo is the reversed decorator list), so the
assembled command's parameter list is in declaration order. -/
theorem C3_order_preserved
    (annots defaults : List (String × PyObj)) (ds : List Decorator)
    (c : Callable) (help : Option String) (cmd : Command)
    (h : decorators_from_dicts annots defaults [] = .ok ds)
    (hc : c.click_params = [])
    (hcmd : command_from_decorators (some c) ds help = .ok cmd) :
    (ds.map Decorator.nameOf =
      annots.map fun kv =>
        if (dictGet kv.1 defaults).isSome then optionHyphens kv.1 ++ spinalcase kv.1
        else spinalcase kv.1) ∧
    cmd.callback.click_params = ds.reverse ∧ cmd.params = ds := by
  rw [decorators_from_dicts_eq] at h
  split at h
  · exact absurd h (by simp)
  · rename_i s1 ds' hb
    cases h
    have hall : ∀ d ∈ ds'.reverse, isParamDecorator d = true := by
      intro d hd
      exact bindingsFor_param hb d (List.mem_reverse.mp hd)
    have hfold : (List.foldl applyDecorator c ds'.reverse).click_params = ds'.reverse := by
      rw [foldl_applyDecorator_click_params, hc, List.nil_append, List.filter_eq_self.mpr hall]
    simp only [command_from_decorators, cfdApply, Except.ok.injEq, List.nil_append] at hcmd
    simp only [List.nil_append]
    refine ⟨by simpa using bindingsFor_names hb, ?_, ?_⟩
    · rw [← hcmd]
      exact hfold
    · rw [← hcmd]
      show (List.foldl applyDecorator c ds'.reverse).click_params.reverse = ds'
      rw [hfold, List.reverse_reverse]

theorem C3_order_preserved_witness :
    (([Decorator.argument "a" (some (.pyType .intC)) 1,
        Decorator.argument "b" (some (.pyType .strC)) 1,
        Decorator.argument "c" (some (.pyType .floatC)) 1] : List Decorator).map
        Decorator.nameOf =
      ([("a", PyObj.cls .intC), ("b", PyObj.cls .strC), ("c", PyObj.cls .floatC)].map
        fun kv =>
          if (dictGet kv.1 []).isSome then optionHyphens kv.1 ++ spinalcase kv.1
          else spinalcase kv.1)) ∧
    (cfdApply { base := .func "f" none }
        [Decorator.argument "a" (some (.pyType .intC)) 1,
          Decorator.argument "b" (some (.pyType .strC)) 1,
          Decorator.argument "c" (some (.pyType .floatC)) 1] none).callback.click_params =
      ([Decorator.argument "a" (some (.pyType .intC)) 1,
        Decorator.argument "b" (some (.pyType .strC)) 1,
        Decorator.argument "c" (some (.pyType .floatC)) 1] : List Decorator).reverse ∧
    (cfdApply { base := .func "f" none }
        [Decorator.argument "a" (some (.pyType .intC)) 1,
          Decorator.argument "b" (some (.pyType .strC)) 1,
          Decorator.argument "c" (some (.pyType .floatC)) 1] none).params =
      [Decorator.argument "a" (some (.pyType .intC)) 1,
        Decorator.argument "b" (some (.pyType .strC)) 1,
        Decorator.argument "c" (some (.pyType .floatC)) 1] :=
  C3_order_preserved
    [("a", PyObj.cls .intC), ("b", PyObj.cls .strC), ("c", PyObj.cls .floatC)] []
    [Decorator.argument "a" (some (.pyType .intC)) 1,
      Decorator.argument "b" (some (.pyType .strC)) 1,
      Decorator.argument "c" (some (.pyType .floatC)) 1]
    { base := .func "f" none } none
    (cfdApply { base := .func "f" none }
      [Decorator.argument "a" (some (.pyType .intC)) 1,
        Decorator.argument "b" (some (.pyType .strC)) 1,
        Decorator.argument "c" (some (.pyType .floatC)) 1] none)
    rfl rfl rfl

/-- A function whose `ctx` parameter is second, not first. -/
def ctxSecondFunc : PyFunc :=
  { name := "f"
    params := [⟨"x", .cls .intC, none, .posOrKw⟩, ⟨"ctx", .cls .objectC, none, .posOrKw⟩]
    doc := none }

/-- C4 counterexample: a parameter named `ctx` in the second position does
not cause `pass_context` to be emitted — the source loop breaks after
examining only the first parameter — refuting that the presence of `ctx`
anywhere in the signature emits the marker. -/
theorem C4_ctx_counterexample :
    signature_to_decorators ctxSecondFunc [] =
        .ok [Decorator.argument "x" (some (.pyType .intC)) 1] ∧
      Decorator.pass_context ∉ [Decorator.argument "x" (some (.pyType .intC)) 1] := by
  exact ⟨rfl, by simp⟩

/-- C4 (amended): a parameter literally named `ctx` never enters the
annotations dict, hence never yields a CLI-visible binding; `pass_context` is
emitted — appended last, hence applied first — if and only if the FIRST
parameter is named `ctx` (later parameters are not examined). -/
theorem C4_ctx_handling (f : PyFunc) (ds : List Decorator)
    (h : signature_to_decorators f [] = .ok ds) :
    "ctx" ∉ (sig_annots f.params).map Prod.fst ∧
    ∃ core,
      decorators_from_dicts (sig_annots f.params) (sig_defaults f.params) [] = .ok core ∧
      Decorator.pass_context ∉ core ∧
      ds = core ++
        (if f.params.head?.map Param.name = some "ctx" then [Decorator.pass_context]
         else []) ∧
      (Decorator.pass_context ∈ ds ↔ f.params.head?.map Param.name = some "ctx") := by
  obtain ⟨core, hc, hds⟩ := signature_to_decorators_eq h
  have hnp : Decorator.pass_context ∉ core := by
    rw [decorators_from_dicts_eq] at hc
    split at hc
    · exact absurd hc (by simp)
    · rename_i s1 core' hb
      cases hc
      intro hmem
      have := bindingsFor_param hb Decorator.pass_context (by simpa using hmem)
      simp [isParamDecorator] at this
  refine ⟨sig_annots_no_ctx f.params, core, ?_, hnp, hds, ?_⟩
  · rw [decorators_from_dicts_eq] at hc ⊢
    exact hc
  · subst hds
    by_cases hctx : f.params.head?.map Param.name = some "ctx"
    · simp [hctx]
    · simp [hctx, hnp]

theorem C4_ctx_handling_witness :
    "ctx" ∉ (sig_annots [(⟨"ctx", .cls .objectC, none, .posOrKw⟩ : Param)]).map Prod.fst ∧
    ∃ core,
      decorators_from_dicts (sig_annots [(⟨"ctx", .cls .objectC, none, .posOrKw⟩ : Param)])
          (sig_defaults [(⟨"ctx", .cls .objectC, none, .posOrKw⟩ : Param)]) [] = .ok core ∧
      Decorator.pass_context ∉ core ∧
      ([Decorator.pass_context] : List Decorator) = core ++
        (if ([(⟨"ctx", .cls .objectC, none, .posOrKw⟩ : Param)] :
              List Param).head?.map Param.name = some "ctx" then [Decorator.pass_context]
         else []) ∧
      (Decorator.pass_context ∈ ([Decorator.pass_context] : List Decorator) ↔
        ([(⟨"ctx", .cls .objectC, none, .posOrKw⟩ : Param)] :
          List Param).head?.map Param.name = some "ctx") :=
  C4_ctx_handling ⟨"g", [⟨"ctx", .cls .objectC, none, .posOrKw⟩], none⟩
    [Decorator.pass_context] rfl

/-- C5: the assembled command has `no_args_is_help` set exactly when at least
one decorator was produced for the callable. -/
theorem C5_no_args_is_help (c : Callable) (ds : List Decorator) (help : Option String) :
    ∃ cmd, command_from_decorators (some c) ds help = .ok cmd ∧
      (cmd.no_args_is_help = true ↔ ds ≠ []) := by
  refine ⟨cfdApply c ds help, rfl, ?_⟩
  unfold cfdApply
  cases ds <;> simp

/-- A dict item whose synthesis succeeds: one annotated name with a default
present in the dict. -/
def cexDict : PyDict := { annots := [("x", .cls .intC)], entries := [("x", .intV 0)] }

/-- C6 counterexample: with two dict items, each iteration constructs a
command (shown by the step equation: the group comes back unchanged next to
the built command), yet the returned group is empty — the dict-derived
commands are never added — refuting that the group contains each command. -/
theorem C6_group_counterexample :
    autoclickStep { commands := [] } (.dict cexDict) =
        .ok ({ commands := [] },
          { params := []
            callback :=
              { base := .ofDecorator (.option "-x" (some (.pyType .intC)) (.intV 0) true false) }
            no_args_is_help := false
            help := none }) ∧
      autoclick [.dict cexDict, .dict cexDict] none = .ok (.inr { commands := [] }) := by
  exact ⟨rfl, rfl⟩

/-- C6 (amended): `autoclick` returns the command constructed from the single
item when exactly one item is supplied, and otherwise returns the group, to
which exactly the commands of the non-dict items were added (dict items
construct a command but do not add it). -/
theorem C6_autoclick_return (items : List Item) (g0 : Group) (res : Sum Command Group)
    (h : autoclick items (some g0) = .ok res) :
    (∀ (it : Item) (r : Group × Command), items = [it] →
        autoclickStep g0 it = .ok r → res = .inl r.2) ∧
    (items.length ≠ 1 →
      ∃ g, res = .inr g ∧
        g.commands.length = g0.commands.length + (items.countP fun it => !it.isDict)) := by
  unfold autoclick at h
  simp only [Option.getD_some] at h
  split at h
  · exact absurd h (by simp)
  · rename_i s1 app last hr
    constructor
    · intro it r' hit hstep
      subst hit
      rw [if_pos (show ([it] : List Item).length = 1 by simp)] at h
      obtain ⟨c, hstep', hlast⟩ := autoclickLoop_single hr
      simp only at hstep' hlast
      subst hlast
      dsimp only at h
      cases h
      rw [hstep] at hstep'
      injection hstep' with he
      rw [he]
    · intro hne
      rw [if_neg hne] at h
      cases h
      exact ⟨app, rfl, autoclickLoop_len _ _ _ _ hr⟩

/-- A minimal pre-built command. -/
def plainCmd : Command := ⟨[], ⟨.func "c" none, [], false⟩, false, none⟩

theorem C6_autoclick_return_witness :
    (∀ (it : Item) (r : Group × Command),
        ([.cmd plainCmd, .cmd plainCmd] : List Item) = [it] →
        autoclickStep ⟨[]⟩ it = .ok r →
        (Sum.inr ⟨[plainCmd, plainCmd]⟩ : Sum Command Group) = .inl r.2) ∧
    (([.cmd plainCmd, .cmd plainCmd] : List Item).length ≠ 1 →
      ∃ g, (Sum.inr ⟨[plainCmd, plainCmd]⟩ : Sum Command Group) = .inr g ∧
        g.commands.length = (Group.mk []).commands.length +
          (([.cmd plainCmd, .cmd plainCmd] : List Item).countP fun it => !it.isDict)) :=
  C6_autoclick_return [.cmd plainCmd, .cmd plainCmd] ⟨[]⟩
    (Sum.inr ⟨[plainCmd, plainCmd]⟩) rfl

/-- C8: a 2-element tuple value of two integers maps to a bounded integer
range over those bounds, and one of two floats to a bounded float range (the
integer probe precedes the float probe; no value satisfies both isinstance
tags, so the two clauses are disjoint). -/
theorem C8_tuple_ranges :
    (∀ (a b : Int) (d : PyObj),
        click_type (.tupleV [.intV a, .intV b]) d =
          .ok (some (.intRange [.intV a, .intV b]))) ∧
    (∀ (p q : Rat) (d : PyObj),
        click_type (.tupleV [.floatV p, .floatV q]) d =
          .ok (some (.floatRange [.floatV p, .floatV q]))) := by
  constructor
  · intro a b d; rfl
  · intro p q d; rfl

/-- C9: a class below the unique-identifier class maps to the UUID call
seeded with the supplied default (the `click.UUID(default)` construction,
recorded opaquely). -/
theorem C9_uuid_default (c : PyClass) (d : PyObj) (h : issubclass c .uuidC = true) :
    click_type (.cls c) d = .ok (some (.uuidT d)) := by
  obtain ⟨h1, h2⟩ := issubclass_uuid_chain c h
  simp [click_type, h, h1, h2]

theorem C9_uuid_default_witness :
    issubclass PyClass.uuidC .uuidC = true ∧
      click_type (.cls .uuidC) (.strV "a-b") = .ok (some (.uuidT (.strV "a-b"))) :=
  ⟨by decide, C9_uuid_default .uuidC (.strV "a-b") (by decide)⟩

/-- C10: `istype` is total on its first argument — it equals the raw
`issubclass` result where that is defined and `false` where `issubclass`
would raise `TypeError` (i.e. whenever the first argument is not a class). -/
theorem C10_istype_total (x : PyObj) (y : PyClass) :
    istype x y = ((python_issubclass x y).toOption.getD false) ∧
      (python_issubclass x y).isOk = isClassB x := by
  cases x <;>
    simp [istype, python_issubclass, isClassB, Except.toOption, Except.isOk,
      Except.toBool]

end Cleye
